import Mathlib

/-!
Shallow embedding of the geph-testing-bot ledger (src/src/main.rs).

The program keeps one SQLite table `agent_records` with columns
`vm_id` (TEXT PRIMARY KEY), `telegram_chat_id` (nullable INTEGER),
`up_secs`, `notified_secs`, `claimed_secs`, plus a `user_languages`
table mapping chat ids to language codes.  Three entry points mutate it:
the Telegram message `handler`, the collector `update_uptime_loop`, and
the notifier `notify_uptime_loop`.  The embedding models the tables as
association lists, SQL integer division as `Int.tdiv` (SQLite truncates
toward zero), and the fallible external collaborators (uptime source,
reward issuer, chat transport) as explicit inputs.
-/

namespace GephBot

/-- One row of the `agent_records` table. -/
structure AgentRecord where
  boundChat : Option Int
  upSecs : Int
  notifiedSecs : Int
  claimedSecs : Int
deriving DecidableEq, Repr

/-- The `agent_records` table: rows keyed by `vm_id`. -/
abbrev Store := List (String × AgentRecord)

/-- The `user_languages` table: chat id to language code. -/
abbrev LangTable := List (Int × String)

-- ---------------------------- Language codes (Lang enum) ----------------------------

/-- The `Lang` enum of main.rs. -/
inductive Lang where
  | en | zh | fa | ru
deriving DecidableEq, Repr

/-- `Lang::code`. -/
def Lang.code : Lang → String
  | .en => "en"
  | .zh => "zh"
  | .fa => "fa"
  | .ru => "ru"

/-- `Lang::from_code`. -/
def Lang.fromCode (s : String) : Option Lang :=
  if s = "en" then some .en
  else if s = "zh" then some .zh
  else if s = "fa" then some .fa
  else if s = "ru" then some .ru
  else none

-- ---------------------------- Command parsing (parse_command) ----------------------------

/-- The `Command` enum of main.rs. -/
inductive Command where
  | register (vmId : String)
  | uptime
  | unclaimed
  | claim
  | deregister
  | menu
  | setLang (l : Lang)
deriving DecidableEq, Repr

/-- Split a character list into whitespace-separated words
(Rust `str::split_whitespace`); `acc` holds the current word reversed. -/
def wordsAux : List Char → List Char → List (List Char)
  | [], acc => if acc = [] then [] else [acc.reverse]
  | c :: rest, acc =>
    if c.isWhitespace then
      if acc = [] then wordsAux rest [] else acc.reverse :: wordsAux rest []
    else wordsAux rest (c :: acc)

/-- The whitespace-separated words of a string (`text.trim().split_whitespace()`;
trimming is subsumed by whitespace splitting). -/
def words (s : String) : List String :=
  (wordsAux s.data []).map (fun cs => ⟨cs⟩)

/-- The characters of a word before the first `@`
(`cmd_word.split('@').next().unwrap()`). -/
def takeUntilAt : List Char → List Char
  | [] => []
  | c :: rest => if c = '@' then [] else c :: takeUntilAt rest

/-- Scan for the first word starting with `/`, returning it together with the
remaining words (the `while let` loop of `parse_command`). -/
def findCmd : List String → Option (String × List String)
  | [] => none
  | w :: rest => if w.data.head? = some '/' then some (w, rest) else findCmd rest

/-- `parse_command` of main.rs. -/
def parseCommand (text : String) : Option Command :=
  match findCmd (words text) with
  | none => none
  | some (w, rest) =>
    let cmd : String := ⟨takeUntilAt w.data⟩
    if cmd = "/register" then rest.head?.map Command.register
    else if cmd = "/uptime" then some Command.uptime
    else if cmd = "/unclaimed" then some Command.unclaimed
    else if cmd = "/claim" then some Command.claim
    else if cmd = "/deregister" then some Command.deregister
    else if cmd = "/menu" then some Command.menu
    else if cmd = "/lang" then (rest.head?.bind Lang.fromCode).map Command.setLang
    else none

-- ---------------------------- Store queries and updates ----------------------------

/-- `SELECT * FROM agent_records WHERE telegram_chat_id = ?` (first match). -/
def findByChat (s : Store) (c : Int) : Option AgentRecord :=
  (s.find? (fun p => decide (p.2.boundChat = some c))).map (fun p => p.2)

/-- `SELECT * FROM agent_records WHERE vm_id = ?` (the key is a primary key). -/
def lookupVm (s : Store) (vm : String) : Option AgentRecord :=
  (s.find? (fun p => decide (p.1 = vm))).map (fun p => p.2)

/-- Whether the register UPDATE (`SET telegram_chat_id = $1 WHERE vm_id = $2 AND
telegram_chat_id IS NULL`) affects a row. -/
def bindable (s : Store) (vm : String) : Bool :=
  s.any (fun p => decide (p.1 = vm ∧ p.2.boundChat = none))

/-- The register UPDATE: bind the unbound row keyed `vm` to chat `c`. -/
def bindVm (s : Store) (vm : String) (c : Int) : Store :=
  s.map (fun p =>
    if p.1 = vm ∧ p.2.boundChat = none then (p.1, { p.2 with boundChat := some c }) else p)

/-- The deregister UPDATE: `SET telegram_chat_id = NULL WHERE telegram_chat_id = ?`. -/
def clearChat (s : Store) (c : Int) : Store :=
  s.map (fun p =>
    if p.2.boundChat = some c then (p.1, { p.2 with boundChat := none }) else p)

/-- `UPDATE agent_records SET notified_secs = notified_secs + $1 WHERE telegram_chat_id = $2`. -/
def advanceNotified (s : Store) (c : Int) (delta : Int) : Store :=
  s.map (fun p =>
    if p.2.boundChat = some c then (p.1, { p.2 with notifiedSecs := p.2.notifiedSecs + delta })
    else p)

/-- `UPDATE agent_records SET claimed_secs = claimed_secs + $1 WHERE telegram_chat_id = $2`. -/
def advanceClaimed (s : Store) (c : Int) (delta : Int) : Store :=
  s.map (fun p =>
    if p.2.boundChat = some c then (p.1, { p.2 with claimedSecs := p.2.claimedSecs + delta })
    else p)

/-- `SELECT lang FROM user_languages WHERE telegram_chat_id = ?`. -/
def lookupLang (ls : LangTable) (c : Int) : Option String :=
  (ls.find? (fun p => decide (p.1 = c))).map (fun p => p.2)

/-- `INSERT INTO user_languages ... ON CONFLICT DO UPDATE SET lang = excluded.lang`. -/
def upsertLang (ls : LangTable) (c : Int) (code : String) : LangTable :=
  if ls.any (fun p => decide (p.1 = c)) then
    ls.map (fun p => if p.1 = c then (p.1, code) else p)
  else ls ++ [(c, code)]

-- ---------------------------- Uptime collector (update_uptime_loop) ----------------------------

/-- One `INSERT ... VALUES ($1, NULL, 60, 0, 0) ON CONFLICT(vm_id) DO UPDATE SET
up_secs = up_secs + 60` of the collector loop. -/
def collectorUpsert (s : Store) (vm : String) : Store :=
  if s.any (fun p => decide (p.1 = vm)) then
    s.map (fun p => if p.1 = vm then (p.1, { p.2 with upSecs := p.2.upSecs + 60 }) else p)
  else s ++ [(vm, ⟨none, 60, 0, 0⟩)]

/-- One iteration of `update_uptime_loop`: the fetch of `available_vms` either
fails (the `?` operator returns the error before any row is touched) or yields
the key set of the JSON map, and every listed vm is upserted. -/
def collectorTick (fetch : Except String (List String)) (s : Store) : Except String Store :=
  match fetch with
  | .error e => .error e
  | .ok vms => .ok (vms.foldl collectorUpsert s)

/-- Running `update_uptime_loop` over a list of scheduled ticks: a tick whose
fetch fails makes the loop body return the error (`?`), which ends the loop;
`main` then unwraps it.  Returns the final store and the escaped error, if any. -/
def updateLoopRun : List (Except String (List String)) → Store → Store × Option String
  | [], s => (s, none)
  | f :: rest, s =>
    match collectorTick f s with
    | .error e => (s, some e)
    | .ok s' => updateLoopRun rest s'

-- ---------------------------- Entitlement notifier (notify_uptime_loop) ----------------------------

/-- `(up_secs - notified_secs) / 86400` (SQLite division truncates toward zero). -/
def earnedDays (r : AgentRecord) : Int := Int.tdiv (r.upSecs - r.notifiedSecs) 86400

/-- The notifier SELECT: `(telegram_chat_id, new_days)` for every row with a
bound chat and `up_secs - notified_secs >= 86400`. -/
def notifyList (s : Store) : List (Int × Int) :=
  s.filterMap (fun p =>
    match p.2.boundChat with
    | some c =>
      if p.2.upSecs - p.2.notifiedSecs ≥ 86400 then some (c, earnedDays p.2) else none
    | none => none)

/-- Processing one `(chat_id, new_days)` entry of the notifier loop against a
transport that accepts `budget` more sends: all `new_days` messages are sent and
then `notified_secs` is advanced, or a send fails partway and the iteration
aborts with the error (`?`) before the UPDATE runs. -/
def notifyOne (s : Store) (c : Int) (days : Int) (budget : Nat) : Store × Except Unit Nat :=
  if days.toNat ≤ budget then (advanceNotified s c (days * 86400), .ok (budget - days.toNat))
  else (s, .error ())

/-- The notifier `for` loop over the selected entries: a failed send aborts the
whole loop body with the error, leaving the remaining entries unprocessed. -/
def processNotifications : List (Int × Int) → Nat → Store → Store × Except Unit Nat
  | [], b, s => (s, .ok b)
  | (c, d) :: rest, b, s =>
    let r := notifyOne s c d b
    match r.2 with
    | .ok b' => processNotifications rest b' r.1
    | .error _ => (r.1, .error ())

/-- One iteration of `notify_uptime_loop`. -/
def notifierTick (s : Store) (budget : Nat) : Store × Except Unit Nat :=
  processNotifications (notifyList s) budget s

/-- Running `notify_uptime_loop` over a list of scheduled ticks (each with a
transport budget): a tick that aborts with an error ends the loop (`?`), and
`main` then unwraps it. -/
def notifierLoopRun : List Nat → Store → Store × Option Unit
  | [], s => (s, none)
  | b :: rest, s =>
    match notifierTick s b with
    | (s', .ok _) => notifierLoopRun rest s'
    | (s', .error _) => (s', some ())

-- ---------------------------- Telegram handler ----------------------------

/-- The distinct outbound messages of the handler (string literals of main.rs;
menu markup is elided). -/
inductive Msg where
  | thanksAlreadyRegistered
  | registerSuccess
  | greeting
  | invalidVm
  | noUnclaimed
  | deregistered
  | menuChoose
  | selectLanguage
  | uptimeHours (h : Int)
  | unclaimedDays (d : Int)
  | giftcard (body : String)
deriving DecidableEq, Repr

/-- An HTTP response of the reward issuer: the code reads only the body text
and never inspects the status. -/
structure HttpResponse where
  status : Nat
  body : String
deriving DecidableEq, Repr

/-- Behavior of the external reward issuer on the claim request:
a transport-level failure (`send()` returns `Err`, unwrapped to a panic) or a
response of any HTTP status. -/
inductive IssuerResult where
  | netErr
  | resp (r : HttpResponse)
deriving DecidableEq, Repr

/-- How one handler invocation terminates: normally, with a `RequestError`
propagated by `?` (a failed Telegram send), or with a panic (an `unwrap`). -/
inductive Outcome where
  | ok
  | err
  | panicked
deriving DecidableEq, Repr

/-- External collaborators of one handler invocation: what the reward issuer
does if called, and whether the i-th outbound Telegram send is accepted. -/
structure Env where
  issuer : IssuerResult
  sendOk : Nat → Bool

/-- Observable result of one handler invocation: the two tables, the messages
accepted by the chat transport, the reward-issuer calls that returned a
response (with the requested day count), and the termination mode. -/
structure HResult where
  records : Store
  langs : LangTable
  sent : List (Int × Msg)
  issuerCalls : List (Int × HttpResponse)
  outcome : Outcome
deriving DecidableEq, Repr

/-- A branch that only performs one Telegram send (`.await?`). -/
def sendOnly (env : Env) (records : Store) (langs : LangTable) (c : Int) (m : Msg) : HResult :=
  if env.sendOk 0 then ⟨records, langs, [(c, m)], [], .ok⟩
  else ⟨records, langs, [], [], .err⟩

/-- The `Command::Register` branch of the handler. -/
def registerBranch (env : Env) (records : Store) (langs : LangTable)
    (chatId : Int) (vmId : String) (registered : Bool) : HResult :=
  if registered then sendOnly env records langs chatId .thanksAlreadyRegistered
  else if bindable records vmId then
    let records' := bindVm records vmId chatId
    if env.sendOk 0 then
      if env.sendOk 1 then
        ⟨records', langs, [(chatId, .registerSuccess), (chatId, .menuChoose)], [], .ok⟩
      else ⟨records', langs, [(chatId, .registerSuccess)], [], .err⟩
    else ⟨records', langs, [], [], .err⟩
  else sendOnly env records langs chatId .invalidVm

/-- The `Command::Uptime` branch (registered case): `fetch_one` of `up_secs`
(its `unwrap` panics if no row matches) and one send of the hours message. -/
def uptimeBranch (env : Env) (records : Store) (langs : LangTable) (chatId : Int) : HResult :=
  match findByChat records chatId with
  | none => ⟨records, langs, [], [], .panicked⟩
  | some r => sendOnly env records langs chatId (.uptimeHours (Int.tdiv r.upSecs 3600))

/-- The `Command::Unclaimed` branch (registered case). -/
def unclaimedBranch (env : Env) (records : Store) (langs : LangTable) (chatId : Int) : HResult :=
  match findByChat records chatId with
  | none => ⟨records, langs, [], [], .panicked⟩
  | some r =>
    sendOnly env records langs chatId
      (.unclaimedDays (Int.tdiv (r.notifiedSecs - r.claimedSecs) 86400))

/-- The `Command::Claim` branch (registered case), in source order: read the
unclaimed day count; if positive, POST to the giftcard endpoint (a network
error is unwrapped into a panic; the response status is never checked), forward
the response body to the chat (`?`), and only then advance `claimed_secs`. -/
def claimBranch (env : Env) (records : Store) (langs : LangTable) (chatId : Int) : HResult :=
  match findByChat records chatId with
  | none => ⟨records, langs, [], [], .panicked⟩
  | some r =>
    let days := Int.tdiv (r.notifiedSecs - r.claimedSecs) 86400
    if days > 0 then
      match env.issuer with
      | .netErr => ⟨records, langs, [], [], .panicked⟩
      | .resp rsp =>
        if env.sendOk 0 then
          ⟨advanceClaimed records chatId (days * 86400), langs,
            [(chatId, .giftcard rsp.body)], [(days, rsp)], .ok⟩
        else ⟨records, langs, [], [(days, rsp)], .err⟩
    else sendOnly env records langs chatId .noUnclaimed

/-- The `Command::Deregister` branch (registered case): the UPDATE runs first,
then the confirmation send. -/
def deregisterBranch (env : Env) (records : Store) (langs : LangTable) (chatId : Int) : HResult :=
  sendOnly env (clearChat records chatId) langs chatId .deregistered

/-- The Telegram `handler` of main.rs.  A message without text returns at once.
Otherwise: `registered` is the EXISTS query on `agent_records`; a valid `/lang`
command is handled before the language gate; a chat with no (valid) stored
language only receives the language prompt; `/start` and `/menu` (exact text)
show the menu; then the parsed command dispatches. -/
def handler (env : Env) (records : Store) (langs : LangTable)
    (chatId : Int) (text? : Option String) : HResult :=
  match text? with
  | none => ⟨records, langs, [], [], .ok⟩
  | some text =>
    let registered := (findByChat records chatId).isSome
    let lang? := (lookupLang langs chatId).bind Lang.fromCode
    match parseCommand text with
    | some (.setLang l) =>
      sendOnly env records (upsertLang langs chatId l.code) chatId .menuChoose
    | pc =>
      match lang? with
      | none => sendOnly env records langs chatId .selectLanguage
      | some _ =>
        if text = "/start" ∨ text = "/menu" then
          sendOnly env records langs chatId .menuChoose
        else
          match pc with
          | some (.register vmId) => registerBranch env records langs chatId vmId registered
          | some .uptime =>
            if registered then uptimeBranch env records langs chatId
            else sendOnly env records langs chatId .greeting
          | some .unclaimed =>
            if registered then unclaimedBranch env records langs chatId
            else sendOnly env records langs chatId .greeting
          | some .claim =>
            if registered then claimBranch env records langs chatId
            else sendOnly env records langs chatId .greeting
          | some .deregister =>
            if registered then deregisterBranch env records langs chatId
            else sendOnly env records langs chatId .greeting
          | some .menu => sendOnly env records langs chatId .menuChoose
          | some (.setLang _) => ⟨records, langs, [], [], .ok⟩
          | none =>
            if registered then sendOnly env records langs chatId .menuChoose
            else sendOnly env records langs chatId .greeting

-- ---------------------------- Invariants ----------------------------

/-- The ledger invariant of one record: `0 ≤ claimed ≤ notified ≤ up`. -/
abbrev inv (r : AgentRecord) : Prop :=
  0 ≤ r.claimedSecs ∧ r.claimedSecs ≤ r.notifiedSecs ∧ r.notifiedSecs ≤ r.upSecs

/-- Two rows are never bound to the same chat. -/
abbrev chatDistinct (p q : String × AgentRecord) : Prop :=
  p.2.boundChat = none ∨ q.2.boundChat = none ∨ p.2.boundChat ≠ q.2.boundChat

/-- Well-formedness of the table: distinct primary keys (`vm_id` is a PRIMARY
KEY), the ledger invariant on every row, and the 1:1 chat binding. -/
abbrev Wf (s : Store) : Prop :=
  (s.map Prod.fst).Nodup ∧ (∀ p ∈ s, inv p.2) ∧ s.Pairwise chatDistinct

-- ---------------------------- Arithmetic helpers ----------------------------

lemma tdiv_day_nonneg {x : Int} (hx : 0 ≤ x) : 0 ≤ Int.tdiv x 86400 := by
  rw [Int.tdiv_eq_ediv hx (by norm_num)]
  positivity

lemma tdiv_day_mul_le {x : Int} (hx : 0 ≤ x) : (Int.tdiv x 86400) * 86400 ≤ x := by
  rw [Int.tdiv_eq_ediv hx (by norm_num)]
  exact Int.ediv_mul_le x (by norm_num)

lemma tdiv_day_ge_one {x : Int} (hx : 86400 ≤ x) : 1 ≤ Int.tdiv x 86400 := by
  rw [Int.tdiv_eq_ediv (by omega) (by norm_num)]
  rw [Int.le_ediv_iff_mul_le (by norm_num)]
  omega

lemma tdiv_day_sub_eq_zero {x : Int} (hx : 0 ≤ x) :
    Int.tdiv (x - (Int.tdiv x 86400) * 86400) 86400 = 0 := by
  rw [Int.tdiv_eq_ediv hx (by norm_num)]
  have h1 : x - x / 86400 * 86400 = x % 86400 := by omega
  rw [h1]
  have h2 : 0 ≤ x % 86400 := Int.emod_nonneg x (by norm_num)
  have h3 : x % 86400 < 86400 := Int.emod_lt_of_pos x (by norm_num)
  rw [Int.tdiv_eq_ediv h2 (by norm_num)]
  exact Int.ediv_eq_zero_of_lt h2 h3

-- ---------------------------- Store query lemmas ----------------------------

lemma findByChat_some {s : Store} {c : Int} {r : AgentRecord} (h : findByChat s c = some r) :
    ∃ p ∈ s, p.2 = r ∧ p.2.boundChat = some c := by
  unfold findByChat at h
  cases hf : s.find? (fun p => decide (p.2.boundChat = some c)) with
  | none => rw [hf] at h; simp at h
  | some p =>
    rw [hf] at h
    simp only [Option.map] at h
    have hmem := List.mem_of_find?_eq_some hf
    have hpred := List.find?_some hf
    simp only [decide_eq_true_eq] at hpred
    exact ⟨p, hmem, Option.some.inj h, hpred⟩

lemma findByChat_none {s : Store} {c : Int} (h : findByChat s c = none) :
    ∀ p ∈ s, p.2.boundChat ≠ some c := by
  unfold findByChat at h
  cases hf : s.find? (fun p => decide (p.2.boundChat = some c)) with
  | none =>
    intro p hp
    have := List.find?_eq_none.mp hf p hp
    simpa using this
  | some p => rw [hf] at h; simp at h

/-- Under the 1:1 binding invariant, two rows bound to the same chat coincide. -/
lemma bound_unique : ∀ (s : Store), s.Pairwise chatDistinct →
    ∀ p ∈ s, ∀ q ∈ s, ∀ c : Int,
      p.2.boundChat = some c → q.2.boundChat = some c → p = q := by
  intro s hp
  induction s with
  | nil => simp
  | cons a t ih =>
    rw [List.pairwise_cons] at hp
    intro p hps q hqs c hpc hqc
    rcases List.mem_cons.mp hps with rfl | hps'
    · rcases List.mem_cons.mp hqs with rfl | hqs'
      · rfl
      · have := hp.1 q hqs'
        simp only [chatDistinct, hpc, hqc] at this
        simp at this
    · rcases List.mem_cons.mp hqs with rfl | hqs'
      · have := hp.1 p hps'
        simp only [chatDistinct, hpc, hqc] at this
        simp at this
      · exact ih hp.2 p hps' q hqs' c hpc hqc

/-- Under the 1:1 binding invariant, `findByChat` returns the record of any
member row bound to that chat. -/
lemma findByChat_of_mem : ∀ (s : Store), s.Pairwise chatDistinct →
    ∀ p ∈ s, ∀ c : Int, p.2.boundChat = some c → findByChat s c = some p.2 := by
  intro s hp
  induction s with
  | nil => simp
  | cons a t ih =>
    rw [List.pairwise_cons] at hp
    intro p hps c hpc
    by_cases ha : a.2.boundChat = some c
    · have hpa : p = a := by
        rcases List.mem_cons.mp hps with rfl | hps'
        · rfl
        · have := hp.1 p hps'
          simp only [chatDistinct, ha, hpc] at this
          simp at this
      subst hpa
      unfold findByChat
      rw [List.find?_cons_of_pos _ (by simpa using ha)]
      rfl
    · have hpt : p ∈ t := by
        rcases List.mem_cons.mp hps with rfl | hps'
        · exact absurd hpc ha
        · exact hps'
      unfold findByChat
      rw [List.find?_cons_of_neg _ (by simpa using ha)]
      exact ih hp.2 p hpt c hpc

-- ---------------------------- Map-update preservation helpers ----------------------------

lemma keys_map_eq (s : Store) (f : String × AgentRecord → String × AgentRecord)
    (hf : ∀ p, (f p).1 = p.1) : (s.map f).map Prod.fst = s.map Prod.fst := by
  induction s with
  | nil => rfl
  | cons a t ih => simp [hf a, ih]

lemma nodup_keys_map {s : Store} (h : (s.map Prod.fst).Nodup)
    (f : String × AgentRecord → String × AgentRecord)
    (hf : ∀ p, (f p).1 = p.1) : ((s.map f).map Prod.fst).Nodup := by
  rw [keys_map_eq s f hf]; exact h

lemma inv_map {s : Store} (h : ∀ p ∈ s, inv p.2)
    (f : String × AgentRecord → String × AgentRecord)
    (hf : ∀ p ∈ s, inv p.2 → inv (f p).2) : ∀ q ∈ s.map f, inv q.2 := by
  intro q hq
  obtain ⟨p, hp, rfl⟩ := List.mem_map.mp hq
  exact hf p hp (h p hp)

lemma chatDistinct_of_bound_eq {p q p' q' : String × AgentRecord}
    (hp : p'.2.boundChat = p.2.boundChat) (hq : q'.2.boundChat = q.2.boundChat) :
    chatDistinct p q → chatDistinct p' q' := by
  intro h
  unfold chatDistinct at h ⊢
  rw [hp, hq]
  exact h

lemma pairwise_map_pointwise {s : Store} (h : s.Pairwise chatDistinct)
    (f : String × AgentRecord → String × AgentRecord)
    (hf : ∀ p q, chatDistinct p q → chatDistinct (f p) (f q)) :
    (s.map f).Pairwise chatDistinct := by
  rw [List.pairwise_map]
  exact h.imp (fun hpq => hf _ _ hpq)

-- ---------------------------- Wf preservation by each operation ----------------------------

lemma wf_collectorUpsert {s : Store} (h : Wf s) (vm : String) : Wf (collectorUpsert s vm) := by
  obtain ⟨hk, hi, hp⟩ := h
  unfold collectorUpsert
  split
  · refine ⟨nodup_keys_map hk _ (fun p => by dsimp only; split <;> rfl), ?_, ?_⟩
    · refine inv_map hi _ (fun p hps hinv => ?_)
      dsimp only
      split
      · exact ⟨hinv.1, hinv.2.1, by have := hinv.2.2; dsimp only; omega⟩
      · exact hinv
    · refine pairwise_map_pointwise hp _ (fun p q hpq => ?_)
      exact chatDistinct_of_bound_eq (by dsimp only; split <;> rfl)
        (by dsimp only; split <;> rfl) hpq
  · next hna =>
    have hvm : ∀ p ∈ s, p.1 ≠ vm := by
      intro p hps heq
      exact hna (List.any_eq_true.mpr ⟨p, hps, by simp [heq]⟩)
    refine ⟨?_, ?_, ?_⟩
    · rw [List.map_append]
      refine List.Nodup.append hk (by simp) ?_
      intro a ha hb
      simp only [List.map_cons, List.map_nil, List.mem_singleton] at hb
      obtain ⟨p, hps, rfl⟩ := List.mem_map.mp ha
      exact hvm p hps hb
    · intro p hps
      rcases List.mem_append.mp hps with hl | hr
      · exact hi p hl
      · simp only [List.mem_singleton] at hr
        subst hr
        exact ⟨le_refl 0, le_refl 0, by norm_num⟩
    · rw [List.pairwise_append]
      refine ⟨hp, List.pairwise_singleton _ _, ?_⟩
      intro a _ b hb
      simp only [List.mem_singleton] at hb
      subst hb
      right; left; rfl

lemma notifyList_mem {s : Store} {c days : Int} (h : (c, days) ∈ notifyList s) :
    ∃ p ∈ s, p.2.boundChat = some c ∧ 86400 ≤ p.2.upSecs - p.2.notifiedSecs ∧
      days = earnedDays p.2 := by
  unfold notifyList at h
  obtain ⟨p, hps, hpe⟩ := List.mem_filterMap.mp h
  cases hb : p.2.boundChat with
  | none => rw [hb] at hpe; simp at hpe
  | some c' =>
    rw [hb] at hpe
    have hpe' : (if p.2.upSecs - p.2.notifiedSecs ≥ 86400
        then some (c', earnedDays p.2) else none) = some (c, days) := hpe
    by_cases hge : p.2.upSecs - p.2.notifiedSecs ≥ 86400
    · rw [if_pos hge] at hpe'
      have hinj := Option.some.inj hpe'
      have hc : c' = c := congrArg Prod.fst hinj
      have hd : earnedDays p.2 = days := congrArg Prod.snd hinj
      subst hc
      exact ⟨p, hps, hb, hge, hd.symm⟩
    · rw [if_neg hge] at hpe'
      simp at hpe'

lemma inv_advance_notified_rec {r : AgentRecord} (h : inv r) {d : Int}
    (hd0 : 0 ≤ d) (hdle : d ≤ r.upSecs - r.notifiedSecs) :
    inv { r with notifiedSecs := r.notifiedSecs + d } := by
  obtain ⟨h1, h2, h3⟩ := h
  refine ⟨h1, ?_, ?_⟩ <;> simp only <;> omega

lemma inv_advance_claimed_rec {r : AgentRecord} (h : inv r) {d : Int}
    (hd0 : 0 ≤ d) (hdle : d ≤ r.notifiedSecs - r.claimedSecs) :
    inv { r with claimedSecs := r.claimedSecs + d } := by
  obtain ⟨h1, h2, h3⟩ := h
  refine ⟨?_, ?_, ?_⟩ <;> simp only <;> omega

lemma wf_advanceNotified {s : Store} (h : Wf s) {c days : Int}
    (hmem : (c, days) ∈ notifyList s) : Wf (advanceNotified s c (days * 86400)) := by
  obtain ⟨hk, hi, hp⟩ := h
  obtain ⟨p, hps, hpb, hpge, hpd⟩ := notifyList_mem hmem
  refine ⟨nodup_keys_map hk _ (fun q => by dsimp only; split <;> rfl), ?_,
    pairwise_map_pointwise hp _ (fun a b hab =>
      chatDistinct_of_bound_eq (by dsimp only; split <;> rfl)
        (by dsimp only; split <;> rfl) hab)⟩
  refine inv_map hi _ (fun q hqs hq => ?_)
  dsimp only
  split
  · next hqb =>
    have hqp : q = p := bound_unique s hp q hqs p hps c hqb hpb
    subst hqp
    have hx : (0 : Int) ≤ q.2.upSecs - q.2.notifiedSecs := by omega
    have h1 : Int.tdiv (q.2.upSecs - q.2.notifiedSecs) 86400 * 86400 ≤
        q.2.upSecs - q.2.notifiedSecs := tdiv_day_mul_le hx
    have h2 : 0 ≤ Int.tdiv (q.2.upSecs - q.2.notifiedSecs) 86400 := tdiv_day_nonneg hx
    have hd0 : 0 ≤ days * 86400 := by
      rw [hpd]; unfold earnedDays; positivity
    have hdle : days * 86400 ≤ q.2.upSecs - q.2.notifiedSecs := by
      rw [hpd]; unfold earnedDays; exact h1
    exact inv_advance_notified_rec hq hd0 hdle
  · exact hq

lemma wf_advanceClaimed {s : Store} (h : Wf s) {c : Int} {r : AgentRecord}
    (hf : findByChat s c = some r) :
    Wf (advanceClaimed s c (Int.tdiv (r.notifiedSecs - r.claimedSecs) 86400 * 86400)) := by
  obtain ⟨hk, hi, hp⟩ := h
  refine ⟨nodup_keys_map hk _ (fun q => by dsimp only; split <;> rfl), ?_,
    pairwise_map_pointwise hp _ (fun a b hab =>
      chatDistinct_of_bound_eq (by dsimp only; split <;> rfl)
        (by dsimp only; split <;> rfl) hab)⟩
  refine inv_map hi _ (fun q hqs hq => ?_)
  dsimp only
  split
  · next hqb =>
    have hfq : findByChat s c = some q.2 := findByChat_of_mem s hp q hqs c hqb
    have hqr : q.2 = r := Option.some.inj (hfq.symm.trans hf)
    have hx : (0 : Int) ≤ r.notifiedSecs - r.claimedSecs := by
      rw [← hqr]; obtain ⟨_, hb', _⟩ := hq; omega
    have h1 : Int.tdiv (r.notifiedSecs - r.claimedSecs) 86400 * 86400 ≤
        r.notifiedSecs - r.claimedSecs := tdiv_day_mul_le hx
    have h2 : 0 ≤ Int.tdiv (r.notifiedSecs - r.claimedSecs) 86400 := tdiv_day_nonneg hx
    have hd0 : 0 ≤ Int.tdiv (r.notifiedSecs - r.claimedSecs) 86400 * 86400 := by positivity
    have hdle : Int.tdiv (r.notifiedSecs - r.claimedSecs) 86400 * 86400 ≤
        q.2.notifiedSecs - q.2.claimedSecs := by rw [hqr]; exact h1
    exact inv_advance_claimed_rec hq hd0 hdle
  · exact hq

lemma wf_clearChat {s : Store} (h : Wf s) (c : Int) : Wf (clearChat s c) := by
  obtain ⟨hk, hi, hp⟩ := h
  refine ⟨nodup_keys_map hk _ (fun q => by dsimp only; split <;> rfl),
    inv_map hi _ (fun q hqs hq => by dsimp only; split <;> exact hq), ?_⟩
  refine pairwise_map_pointwise hp _ (fun p q hpq => ?_)
  dsimp only
  by_cases h1 : p.2.boundChat = some c
  · rw [if_pos h1]; left; rfl
  · rw [if_neg h1]
    by_cases h2 : q.2.boundChat = some c
    · rw [if_pos h2]; right; left; rfl
    · rw [if_neg h2]; exact hpq

lemma pairwise_bindVm {c : Int} {vm : String} : ∀ (s : Store), (s.map Prod.fst).Nodup →
    (∀ p ∈ s, p.2.boundChat ≠ some c) → s.Pairwise chatDistinct →
    (bindVm s vm c).Pairwise chatDistinct := by
  intro s
  induction s with
  | nil => intro _ _ _; exact List.Pairwise.nil
  | cons a t ih =>
    intro hk hnc hp
    rw [List.pairwise_cons] at hp
    simp only [List.map_cons, List.nodup_cons] at hk
    unfold bindVm
    rw [List.map_cons, List.pairwise_cons]
    constructor
    · intro b' hb'
      obtain ⟨b, hbt, rfl⟩ := List.mem_map.mp hb'
      by_cases hat : a.1 = vm ∧ a.2.boundChat = none
      · by_cases hbb : b.1 = vm ∧ b.2.boundChat = none
        · exfalso
          apply hk.1
          rw [hat.1, ← hbb.1]
          exact List.mem_map.mpr ⟨b, hbt, rfl⟩
        · rw [if_pos hat, if_neg hbb]
          have hbc : b.2.boundChat ≠ some c := hnc b (List.mem_cons_of_mem a hbt)
          right; right
          exact fun hcontra => hbc hcontra.symm
      · rw [if_neg hat]
        by_cases hbb : b.1 = vm ∧ b.2.boundChat = none
        · rw [if_pos hbb]
          have hac : a.2.boundChat ≠ some c := hnc a (List.mem_cons_self a t)
          right; right
          exact fun hcontra => hac hcontra
        · rw [if_neg hbb]
          exact hp.1 b hbt
    · exact ih hk.2 (fun p hps => hnc p (List.mem_cons_of_mem a hps)) hp.2

lemma wf_bindVm {s : Store} (h : Wf s) {c : Int} (vm : String)
    (hnone : findByChat s c = none) : Wf (bindVm s vm c) := by
  obtain ⟨hk, hi, hp⟩ := h
  exact ⟨nodup_keys_map hk _ (fun q => by dsimp only; split <;> rfl),
    inv_map hi _ (fun q hqs hq => by dsimp only; split <;> exact hq),
    pairwise_bindVm s hk (findByChat_none hnone) hp⟩

-- ---------------------------- Handler branch facts ----------------------------

lemma records_sendOnly (env : Env) (s : Store) (langs : LangTable) (c : Int) (m : Msg) :
    (sendOnly env s langs c m).records = s := by
  unfold sendOnly; split <;> rfl

lemma langs_sendOnly (env : Env) (s : Store) (langs : LangTable) (c : Int) (m : Msg) :
    (sendOnly env s langs c m).langs = langs := by
  unfold sendOnly; split <;> rfl

lemma issuerCalls_sendOnly (env : Env) (s : Store) (langs : LangTable) (c : Int) (m : Msg) :
    (sendOnly env s langs c m).issuerCalls = [] := by
  unfold sendOnly; split <;> rfl

lemma sent_sendOnly (env : Env) (s : Store) (langs : LangTable) (c : Int) (m : Msg) :
    (sendOnly env s langs c m).sent = (if env.sendOk 0 then [(c, m)] else []) := by
  unfold sendOnly; split <;> simp_all

lemma wf_registerBranch (env : Env) (s : Store) (langs : LangTable) (chatId : Int)
    (vmId : String) (h : Wf s) :
    Wf (registerBranch env s langs chatId vmId (findByChat s chatId).isSome).records := by
  unfold registerBranch
  split
  · rw [records_sendOnly]; exact h
  · next hreg =>
    have hnone : findByChat s chatId = none := by
      cases hf : findByChat s chatId with
      | none => rfl
      | some r => rw [hf] at hreg; simp at hreg
    split
    · split
      · split
        · exact wf_bindVm h vmId hnone
        · exact wf_bindVm h vmId hnone
      · exact wf_bindVm h vmId hnone
    · rw [records_sendOnly]; exact h

lemma wf_claimBranch (env : Env) (s : Store) (langs : LangTable) (chatId : Int)
    (h : Wf s) : Wf (claimBranch env s langs chatId).records := by
  unfold claimBranch
  split
  · exact h
  · next r hr =>
    dsimp only
    split
    · split
      · exact h
      · split
        · exact wf_advanceClaimed h hr
        · exact h
    · rw [records_sendOnly]; exact h

lemma wf_uptimeBranch (env : Env) (s : Store) (langs : LangTable) (chatId : Int)
    (h : Wf s) : Wf (uptimeBranch env s langs chatId).records := by
  unfold uptimeBranch
  split
  · exact h
  · rw [records_sendOnly]; exact h

lemma wf_unclaimedBranch (env : Env) (s : Store) (langs : LangTable) (chatId : Int)
    (h : Wf s) : Wf (unclaimedBranch env s langs chatId).records := by
  unfold unclaimedBranch
  split
  · exact h
  · rw [records_sendOnly]; exact h

lemma wf_deregisterBranch (env : Env) (s : Store) (langs : LangTable) (chatId : Int)
    (h : Wf s) : Wf (deregisterBranch env s langs chatId).records := by
  unfold deregisterBranch
  rw [records_sendOnly]
  exact wf_clearChat h chatId

/-- The handler never breaks table well-formedness, whatever the message, the
chat, the stored languages, or the external collaborators do. -/
lemma wf_handler (env : Env) (s : Store) (langs : LangTable) (chatId : Int)
    (text? : Option String) (h : Wf s) :
    Wf (handler env s langs chatId text?).records := by
  unfold handler
  split
  · exact h
  · dsimp only
    repeat' split
    all_goals first
      | exact h
      | (rw [records_sendOnly]; exact h)
      | exact wf_registerBranch env s langs chatId _ h
      | exact wf_uptimeBranch env s langs chatId h
      | exact wf_unclaimedBranch env s langs chatId h
      | exact wf_claimBranch env s langs chatId h
      | exact wf_deregisterBranch env s langs chatId h

-- ---------------------------- More store facts ----------------------------

/-- After the deregister UPDATE, no row is bound to the chat any more. -/
lemma findByChat_clearChat : ∀ (s : Store) (c : Int), findByChat (clearChat s c) c = none := by
  intro s c
  induction s with
  | nil => rfl
  | cons a t ih =>
    unfold clearChat at ih ⊢
    rw [List.map_cons]
    unfold findByChat at ih ⊢
    rw [List.find?_cons_of_neg]
    · exact ih
    · by_cases ha : a.2.boundChat = some c
      · rw [if_pos ha]; simp
      · rw [if_neg ha]; simp [ha]

/-- The claim UPDATE only moves `claimed_secs` of the bound row. -/
lemma findByChat_advanceClaimed : ∀ (s : Store) (c d : Int),
    findByChat (advanceClaimed s c d) c =
      (findByChat s c).map (fun r => { r with claimedSecs := r.claimedSecs + d }) := by
  intro s c d
  induction s with
  | nil => rfl
  | cons a t ih =>
    unfold advanceClaimed at ih ⊢
    rw [List.map_cons]
    unfold findByChat at ih ⊢
    by_cases ha : a.2.boundChat = some c
    · rw [if_pos ha]
      rw [List.find?_cons_of_pos _ (by simp [ha]), List.find?_cons_of_pos _ (by simp [ha])]
      simp
    · rw [if_neg ha]
      rw [List.find?_cons_of_neg _ (by simp [ha]), List.find?_cons_of_neg _ (by simp [ha])]
      exact ih

-- ---------------------------- Handler dispatch lemmas ----------------------------

lemma handler_claim_eq (env : Env) (records : Store) (langs : LangTable)
    (chatId : Int) (text : String) (lang : Lang)
    (hcmd : parseCommand text = some Command.claim)
    (hlang : (lookupLang langs chatId).bind Lang.fromCode = some lang) :
    handler env records langs chatId (some text) =
      (if (findByChat records chatId).isSome then claimBranch env records langs chatId
       else sendOnly env records langs chatId Msg.greeting) := by
  have hns : text ≠ "/start" := by
    intro h; rw [h] at hcmd; exact absurd hcmd (by decide)
  have hnm : text ≠ "/menu" := by
    intro h; rw [h] at hcmd; exact absurd hcmd (by decide)
  simp only [handler]
  rw [hcmd, hlang]
  simp [hns, hnm]

lemma handler_register_eq (env : Env) (records : Store) (langs : LangTable)
    (chatId : Int) (text : String) (vmId : String) (lang : Lang)
    (hcmd : parseCommand text = some (Command.register vmId))
    (hlang : (lookupLang langs chatId).bind Lang.fromCode = some lang) :
    handler env records langs chatId (some text) =
      registerBranch env records langs chatId vmId (findByChat records chatId).isSome := by
  have hns : text ≠ "/start" := by
    intro h
    rw [h] at hcmd
    have hnone : parseCommand "/start" = none := by decide
    rw [hnone] at hcmd
    exact absurd hcmd (by simp)
  have hnm : text ≠ "/menu" := by
    intro h
    rw [h] at hcmd
    have hmenu : parseCommand "/menu" = some Command.menu := by decide
    rw [hmenu] at hcmd
    simp at hcmd
  simp only [handler]
  rw [hcmd, hlang]
  simp [hns, hnm]

lemma handler_deregister_eq (env : Env) (records : Store) (langs : LangTable)
    (chatId : Int) (text : String) (lang : Lang)
    (hcmd : parseCommand text = some Command.deregister)
    (hlang : (lookupLang langs chatId).bind Lang.fromCode = some lang) :
    handler env records langs chatId (some text) =
      (if (findByChat records chatId).isSome then deregisterBranch env records langs chatId
       else sendOnly env records langs chatId Msg.greeting) := by
  have hns : text ≠ "/start" := by
    intro h; rw [h] at hcmd; exact absurd hcmd (by decide)
  have hnm : text ≠ "/menu" := by
    intro h; rw [h] at hcmd; exact absurd hcmd (by decide)
  simp only [handler]
  rw [hcmd, hlang]
  simp [hns, hnm]

lemma handler_no_lang (env : Env) (records : Store) (langs : LangTable)
    (chatId : Int) (text : String)
    (hno : lookupLang langs chatId = none)
    (hnl : ∀ l, parseCommand text ≠ some (Command.setLang l)) :
    handler env records langs chatId (some text) =
      sendOnly env records langs chatId Msg.selectLanguage := by
  simp only [handler]
  rw [hno]
  cases hpc : parseCommand text with
  | none => rfl
  | some cmd =>
    cases cmd with
    | register vmId => rfl
    | uptime => rfl
    | unclaimed => rfl
    | claim => rfl
    | deregister => rfl
    | menu => rfl
    | setLang l => exact absurd hpc (hnl l)

-- ---------------------------- Claim theorems ----------------------------

/-- C4: For every notifier tick and every qualifying bound record selected by
the scan — an entry `(c, days)` of the tick's query with `days = floor((up_secs
- notified_secs)/86400) ≥ 1` — `notified_secs` is advanced by `days * 86400`
exactly when the chat transport accepts all `days` notification sends; if the
transport fails after `budget < days` of the `days` sends, the store is left
unchanged, the iteration aborts with the error, and the same `(c, days)` entry
is recomputed by the next tick's scan over the unchanged store, so all `days`
sends are re-attempted, never fewer. -/
theorem C4_notify_advance_after_sends (s : Store) (c days : Int) (budget : Nat)
    (hmem : (c, days) ∈ notifyList s) :
    1 ≤ days ∧
    (days.toNat ≤ budget →
      notifyOne s c days budget =
        (advanceNotified s c (days * 86400), Except.ok (budget - days.toNat))) ∧
    (budget < days.toNat →
      notifyOne s c days budget = (s, Except.error ()) ∧
      (c, days) ∈ notifyList (notifyOne s c days budget).1) := by
  obtain ⟨p, hps, hpb, hpge, hpd⟩ := notifyList_mem hmem
  refine ⟨?_, ?_, ?_⟩
  · rw [hpd]; unfold earnedDays; exact tdiv_day_ge_one hpge
  · intro hle; unfold notifyOne; rw [if_pos hle]
  · intro hlt
    have heq : notifyOne s c days budget = (s, Except.error ()) := by
      unfold notifyOne; rw [if_neg (by omega)]
    exact ⟨heq, by rw [heq]; exact hmem⟩

theorem C4_witness :
    notifyOne [("vm1", (⟨some 1, 172800, 0, 0⟩ : AgentRecord))] 1 2 1 =
      ([("vm1", (⟨some 1, 172800, 0, 0⟩ : AgentRecord))], Except.error ()) ∧
    (1, 2) ∈ notifyList (notifyOne [("vm1", (⟨some 1, 172800, 0, 0⟩ : AgentRecord))] 1 2 1).1 :=
  (C4_notify_advance_after_sends [("vm1", ⟨some 1, 172800, 0, 0⟩)] 1 2 1
    (by decide)).2.2 (by decide)

/-- C5 counterexample: a collector tick whose external fetch fails does not
get "skipped and retried": the `?` operator makes the loop body return the
error, which terminates the loop (and `main` unwraps it), and the next
scheduled tick never runs — the store still lacks the vm the second tick
would have inserted. -/
theorem C5_counterexample :
    updateLoopRun [Except.error "connection refused", Except.ok ["vmA"]] [] =
      ([], some "connection refused") := by decide

/-- C5 (amended): a transient external failure inside a periodic loop aborts
the affected tick with an error that propagates out of the loop and terminates
it (`main` then unwraps the error): a collector fetch failure mutates nothing
and the remaining scheduled ticks never run; a notifier send failure (budget
< days sends accepted) leaves the store unchanged from the failing entry on,
with the remaining entries unprocessed, and a notifier tick that ends in an
error likewise terminates the notifier loop. -/
theorem C5_failure_propagates (s : Store) (e : String)
    (rest : List (Except String (List String))) (c days : Int) (budget : Nat)
    (entries : List (Int × Int)) (bs : List Nat)
    (hlt : budget < days.toNat) :
    updateLoopRun (Except.error e :: rest) s = (s, some e) ∧
    processNotifications ((c, days) :: entries) budget s = (s, Except.error ()) ∧
    ((notifierTick s budget).2 = Except.error () →
      notifierLoopRun (budget :: bs) s = ((notifierTick s budget).1, some ())) := by
  refine ⟨rfl, ?_, ?_⟩
  · show (let r := notifyOne s c days budget;
      match r.2 with
      | .ok b' => processNotifications entries b' r.1
      | .error _ => (r.1, .error ())) = (s, Except.error ())
    have heq : notifyOne s c days budget = (s, Except.error ()) := by
      unfold notifyOne; rw [if_neg (by omega)]
    rw [heq]
  · intro herr
    unfold notifierLoopRun
    cases ht : notifierTick s budget with
    | mk s' r2 =>
      cases r2 with
      | ok b => rw [ht] at herr; simp at herr
      | error u => rfl

theorem C5_witness :
    updateLoopRun [Except.error "x"] [] = ([], some "x") ∧
    processNotifications [((1 : Int), (2 : Int))] 1 [] = ([], Except.error ()) ∧
    ((notifierTick [] 1).2 = Except.error () →
      notifierLoopRun [1] [] = ((notifierTick [] 1).1, some ())) :=
  C5_failure_propagates [] "x" [] 1 2 1 [] [] (by decide)

/-- C6: For every claim request by a registered chat whose unclaimed day count
`floor((notified_secs - claimed_secs)/86400)` is ≤ 0, the handler reports
"nothing to claim" and stops: no call is made to the external reward issuer,
and neither the agent_records table nor the language table is mutated. -/
theorem C6_nothing_to_claim (env : Env) (records : Store) (langs : LangTable)
    (chatId : Int) (text : String) (lang : Lang) (r : AgentRecord)
    (hcmd : parseCommand text = some Command.claim)
    (hlang : (lookupLang langs chatId).bind Lang.fromCode = some lang)
    (hreg : findByChat records chatId = some r)
    (hdays : Int.tdiv (r.notifiedSecs - r.claimedSecs) 86400 ≤ 0) :
    (handler env records langs chatId (some text)).records = records ∧
    (handler env records langs chatId (some text)).langs = langs ∧
    (handler env records langs chatId (some text)).issuerCalls = [] ∧
    (handler env records langs chatId (some text)).sent =
      (if env.sendOk 0 then [(chatId, Msg.noUnclaimed)] else []) := by
  have heq : handler env records langs chatId (some text) =
      sendOnly env records langs chatId Msg.noUnclaimed := by
    rw [handler_claim_eq env records langs chatId text lang hcmd hlang, hreg]
    simp only [Option.isSome_some, if_true]
    unfold claimBranch
    rw [hreg]
    dsimp only
    rw [if_neg (by omega)]
  rw [heq]
  exact ⟨records_sendOnly _ _ _ _ _, langs_sendOnly _ _ _ _ _,
    issuerCalls_sendOnly _ _ _ _ _, sent_sendOnly _ _ _ _ _⟩

theorem C6_witness :
    (handler ⟨IssuerResult.netErr, fun _ => true⟩
        [("vm1", (⟨some 7, 100000, 86400, 86400⟩ : AgentRecord))] [(7, "en")] 7
        (some "/claim")).issuerCalls = [] :=
  (C6_nothing_to_claim ⟨IssuerResult.netErr, fun _ => true⟩
    [("vm1", ⟨some 7, 100000, 86400, 86400⟩)] [(7, "en")] 7 "/claim" Lang.en
    ⟨some 7, 100000, 86400, 86400⟩ (by decide) (by decide) (by decide) (by decide)).2.2.1

/-- C10: For every inbound text message from a chat with no stored language
row, unless the message is a valid `/lang` command the handler only sends the
language-selection prompt and returns: no command branch runs, no issuer call
is made, and neither the agent_records table nor the language table changes. -/
theorem C10_no_lang_prompt_only (env : Env) (records : Store) (langs : LangTable)
    (chatId : Int) (text : String)
    (hno : lookupLang langs chatId = none)
    (hnl : ∀ l, parseCommand text ≠ some (Command.setLang l)) :
    (handler env records langs chatId (some text)).records = records ∧
    (handler env records langs chatId (some text)).langs = langs ∧
    (handler env records langs chatId (some text)).issuerCalls = [] ∧
    (handler env records langs chatId (some text)).sent =
      (if env.sendOk 0 then [(chatId, Msg.selectLanguage)] else []) := by
  rw [handler_no_lang env records langs chatId text hno hnl]
  exact ⟨records_sendOnly _ _ _ _ _, langs_sendOnly _ _ _ _ _,
    issuerCalls_sendOnly _ _ _ _ _, sent_sendOnly _ _ _ _ _⟩

theorem C10_witness :
    (handler ⟨IssuerResult.netErr, fun _ => true⟩
        [("vm1", (⟨some 7, 100000, 86400, 0⟩ : AgentRecord))] [] 7 (some "/claim")).sent =
      [((7 : Int), Msg.selectLanguage)] := by
  have h := (C10_no_lang_prompt_only ⟨IssuerResult.netErr, fun _ => true⟩
    [("vm1", ⟨some 7, 100000, 86400, 0⟩)] [] 7 "/claim" (by decide)
    (fun l => by cases l <;> decide)).2.2.2
  simpa using h

/-- C2 (code bug): when the external reward issuer answers the claim POST with
a non-success HTTP status (here 500 with an error body), the handler — which
never inspects the response status, exactly like main.rs, where
`isahc`'s `send()` succeeds on any HTTP status — forwards the error body to
the chat as if it were the reward and still advances `claimed_secs` by the
claimed amount: the failed call is treated as success, contradicting the
claim, which is the evident intent. -/
theorem C2_status_ignored_on_claim :
    handler ⟨IssuerResult.resp ⟨500, "internal error"⟩, fun _ => true⟩
        [("vm1", ⟨some 7, 172800, 86400, 0⟩)] [(7, "en")] 7 (some "/claim") =
      ⟨[("vm1", ⟨some 7, 172800, 86400, 86400⟩)], [(7, "en")],
        [(7, Msg.giftcard "internal error")], [(1, ⟨500, "internal error"⟩)],
        Outcome.ok⟩ := by
  decide

/-- C3 counterexample: a first claim whose external call succeeds (HTTP 200)
but whose chat delivery of the reward payload fails leaves `claimed_secs`
unchanged — the advance does **not** immediately follow the successful
external call — so a second claim for the same chat issues a second reward
for the very same single unclaimed day: two successful one-day issuer calls
against an entitlement of one day (double-issue). -/
theorem C3_counterexample :
    (handler ⟨IssuerResult.resp ⟨200, "tokA"⟩, fun _ => false⟩
        [("vm1", ⟨some 1, 86400, 86400, 0⟩)] [(1, "en")] 1 (some "/claim")).issuerCalls =
      [(1, ⟨200, "tokA"⟩)] ∧
    (handler ⟨IssuerResult.resp ⟨200, "tokA"⟩, fun _ => false⟩
        [("vm1", ⟨some 1, 86400, 86400, 0⟩)] [(1, "en")] 1 (some "/claim")).records =
      [("vm1", ⟨some 1, 86400, 86400, 0⟩)] ∧
    (handler ⟨IssuerResult.resp ⟨200, "tokB"⟩, fun _ => true⟩
        (handler ⟨IssuerResult.resp ⟨200, "tokA"⟩, fun _ => false⟩
          [("vm1", ⟨some 1, 86400, 86400, 0⟩)] [(1, "en")] 1 (some "/claim")).records
        [(1, "en")] 1 (some "/claim")).issuerCalls = [(1, ⟨200, "tokB"⟩)] := by
  decide

/-- C3 (amended): on a claim with a positive unclaimed day count, the external
call's success is followed by the `claimed_secs` advance only after the reward
payload has been delivered to the chat; when that delivery succeeds, the
advance happens within the same request, and any later claim request for that
chat then finds nothing to claim and makes no issuer call — so sequences of
claims whose reward deliveries succeed never double-issue. -/
theorem C3_advance_after_delivery (env env2 : Env) (records : Store)
    (langs : LangTable) (chatId : Int) (text text2 : String) (lang : Lang)
    (r : AgentRecord) (rsp : HttpResponse)
    (hWf : Wf records)
    (hcmd : parseCommand text = some Command.claim)
    (hcmd2 : parseCommand text2 = some Command.claim)
    (hlang : (lookupLang langs chatId).bind Lang.fromCode = some lang)
    (hreg : findByChat records chatId = some r)
    (hdays : 0 < Int.tdiv (r.notifiedSecs - r.claimedSecs) 86400)
    (hissuer : env.issuer = IssuerResult.resp rsp)
    (hsend : env.sendOk 0 = true) :
    (handler env records langs chatId (some text)).records =
      advanceClaimed records chatId
        (Int.tdiv (r.notifiedSecs - r.claimedSecs) 86400 * 86400) ∧
    (handler env records langs chatId (some text)).issuerCalls =
      [(Int.tdiv (r.notifiedSecs - r.claimedSecs) 86400, rsp)] ∧
    (handler env2 (handler env records langs chatId (some text)).records
        (handler env records langs chatId (some text)).langs chatId
        (some text2)).issuerCalls = [] := by
  have heq : handler env records langs chatId (some text) =
      ⟨advanceClaimed records chatId
          (Int.tdiv (r.notifiedSecs - r.claimedSecs) 86400 * 86400), langs,
        [(chatId, Msg.giftcard rsp.body)],
        [(Int.tdiv (r.notifiedSecs - r.claimedSecs) 86400, rsp)], Outcome.ok⟩ := by
    rw [handler_claim_eq env records langs chatId text lang hcmd hlang, hreg]
    simp only [Option.isSome_some, if_true]
    unfold claimBranch
    rw [hreg]
    dsimp only
    rw [if_pos hdays, hissuer]
    dsimp only
    rw [if_pos hsend]
  refine ⟨by rw [heq], by rw [heq], ?_⟩
  rw [heq]
  dsimp only
  -- the record the second claim finds has its claimed counter advanced
  have hinv : inv r := by
    obtain ⟨p, hps, hpr, _⟩ := findByChat_some hreg
    exact hpr ▸ hWf.2.1 p hps
  have hx : (0 : Int) ≤ r.notifiedSecs - r.claimedSecs := by
    obtain ⟨_, h2, _⟩ := hinv; omega
  have hfind2 : findByChat
      (advanceClaimed records chatId
        (Int.tdiv (r.notifiedSecs - r.claimedSecs) 86400 * 86400)) chatId =
      some { r with claimedSecs :=
        r.claimedSecs + Int.tdiv (r.notifiedSecs - r.claimedSecs) 86400 * 86400 } := by
    rw [findByChat_advanceClaimed, hreg]
    rfl
  have hd2 : Int.tdiv
      (r.notifiedSecs -
        (r.claimedSecs + Int.tdiv (r.notifiedSecs - r.claimedSecs) 86400 * 86400))
      86400 = 0 := by
    have := tdiv_day_sub_eq_zero hx
    have harg : r.notifiedSecs -
        (r.claimedSecs + Int.tdiv (r.notifiedSecs - r.claimedSecs) 86400 * 86400) =
        r.notifiedSecs - r.claimedSecs -
          Int.tdiv (r.notifiedSecs - r.claimedSecs) 86400 * 86400 := by ring
    rw [harg]
    exact this
  have heq2 : handler env2
      (advanceClaimed records chatId
        (Int.tdiv (r.notifiedSecs - r.claimedSecs) 86400 * 86400)) langs chatId
      (some text2) =
      sendOnly env2
        (advanceClaimed records chatId
          (Int.tdiv (r.notifiedSecs - r.claimedSecs) 86400 * 86400)) langs chatId
        Msg.noUnclaimed := by
    rw [handler_claim_eq env2 _ langs chatId text2 lang hcmd2 hlang, hfind2]
    simp only [Option.isSome_some, if_true]
    unfold claimBranch
    rw [hfind2]
    dsimp only
    rw [if_neg (by rw [hd2]; omega)]
  rw [heq2]
  exact issuerCalls_sendOnly _ _ _ _ _

theorem C3_witness :
    (handler ⟨IssuerResult.resp ⟨200, "tok2"⟩, fun _ => true⟩
        (handler ⟨IssuerResult.resp ⟨200, "tok"⟩, fun _ => true⟩
          [("vm1", ⟨some 1, 86400, 86400, 0⟩)] [(1, "en")] 1 (some "/claim")).records
        (handler ⟨IssuerResult.resp ⟨200, "tok"⟩, fun _ => true⟩
          [("vm1", ⟨some 1, 86400, 86400, 0⟩)] [(1, "en")] 1 (some "/claim")).langs
        1 (some "/claim")).issuerCalls = [] :=
  (C3_advance_after_delivery ⟨IssuerResult.resp ⟨200, "tok"⟩, fun _ => true⟩
    ⟨IssuerResult.resp ⟨200, "tok2"⟩, fun _ => true⟩
    [("vm1", ⟨some 1, 86400, 86400, 0⟩)] [(1, "en")] 1 "/claim" "/claim" Lang.en
    ⟨some 1, 86400, 86400, 0⟩ ⟨200, "tok"⟩ (by decide) (by decide) (by decide)
    (by decide) (by decide) (by decide) (by decide) (by decide)).2.2

/-- C9: deregister is idempotent: the first deregister of a registered chat
clears `bound_chat` on every row bound to that chat while leaving all three
counters of every row unchanged, and a second deregister finds no bound agent,
mutates nothing, and answers with the greeting notice; the store after two
calls equals the store after one. -/
theorem C9_deregister_idempotent (env env2 : Env) (records : Store)
    (langs : LangTable) (chatId : Int) (text text2 : String) (lang : Lang)
    (hcmd : parseCommand text = some Command.deregister)
    (hcmd2 : parseCommand text2 = some Command.deregister)
    (hlang : (lookupLang langs chatId).bind Lang.fromCode = some lang)
    (hreg : (findByChat records chatId).isSome = true) :
    (handler env records langs chatId (some text)).records =
      clearChat records chatId ∧
    (handler env records langs chatId (some text)).langs = langs ∧
    (handler env records langs chatId (some text)).sent =
      (if env.sendOk 0 then [(chatId, Msg.deregistered)] else []) ∧
    findByChat (handler env records langs chatId (some text)).records chatId = none ∧
    (handler env2 (handler env records langs chatId (some text)).records
        (handler env records langs chatId (some text)).langs chatId
        (some text2)).records =
      (handler env records langs chatId (some text)).records ∧
    (handler env2 (handler env records langs chatId (some text)).records
        (handler env records langs chatId (some text)).langs chatId
        (some text2)).sent =
      (if env2.sendOk 0 then [(chatId, Msg.greeting)] else []) ∧
    (∀ p ∈ (handler env records langs chatId (some text)).records, ∃ q ∈ records,
      p.1 = q.1 ∧ p.2.upSecs = q.2.upSecs ∧ p.2.notifiedSecs = q.2.notifiedSecs ∧
        p.2.claimedSecs = q.2.claimedSecs) := by
  have heq : handler env records langs chatId (some text) =
      sendOnly env (clearChat records chatId) langs chatId Msg.deregistered := by
    rw [handler_deregister_eq env records langs chatId text lang hcmd hlang,
      if_pos hreg]
    rfl
  have hrec1 : (handler env records langs chatId (some text)).records =
      clearChat records chatId := by
    rw [heq]; exact records_sendOnly _ _ _ _ _
  have hlang1 : (handler env records langs chatId (some text)).langs = langs := by
    rw [heq]; exact langs_sendOnly _ _ _ _ _
  have hnone : findByChat (clearChat records chatId) chatId = none :=
    findByChat_clearChat records chatId
  have heq2 : handler env2 (clearChat records chatId) langs chatId (some text2) =
      sendOnly env2 (clearChat records chatId) langs chatId Msg.greeting := by
    rw [handler_deregister_eq env2 _ langs chatId text2 lang hcmd2 hlang, hnone]
    rfl
  refine ⟨hrec1, hlang1, by rw [heq]; exact sent_sendOnly _ _ _ _ _,
    by rw [hrec1]; exact hnone, ?_, ?_, ?_⟩
  · rw [hrec1, hlang1, heq2]
    exact records_sendOnly _ _ _ _ _
  · rw [hrec1, hlang1, heq2]
    exact sent_sendOnly _ _ _ _ _
  · rw [hrec1]
    intro p hp
    obtain ⟨q, hq, rfl⟩ := List.mem_map.mp hp
    refine ⟨q, hq, ?_⟩
    by_cases h : q.2.boundChat = some chatId
    · rw [if_pos h]
      exact ⟨rfl, rfl, rfl, rfl⟩
    · rw [if_neg h]
      exact ⟨rfl, rfl, rfl, rfl⟩

theorem C9_witness :
    findByChat (handler ⟨IssuerResult.netErr, fun _ => true⟩
        [("vm1", ⟨some 7, 100000, 86400, 0⟩)] [(7, "en")] 7
        (some "/deregister")).records 7 = none :=
  (C9_deregister_idempotent ⟨IssuerResult.netErr, fun _ => true⟩
    ⟨IssuerResult.netErr, fun _ => true⟩ [("vm1", ⟨some 7, 100000, 86400, 0⟩)]
    [(7, "en")] 7 "/deregister" "/deregister" Lang.en (by decide) (by decide)
    (by decide) (by decide)).2.2.2.1

-- ---------------------------- Collector lookup lemmas (for C8) ----------------------------

lemma lookupVm_bump : ∀ (s : Store) (vm : String),
    lookupVm (s.map (fun p =>
      if p.1 = vm then (p.1, { p.2 with upSecs := p.2.upSecs + 60 }) else p)) vm =
      (lookupVm s vm).map (fun r => { r with upSecs := r.upSecs + 60 }) := by
  intro s vm
  induction s with
  | nil => rfl
  | cons a t ih =>
    unfold lookupVm at ih ⊢
    rw [List.map_cons]
    by_cases ha : a.1 = vm
    · rw [if_pos ha]
      rw [List.find?_cons_of_pos _ (by simp [ha]), List.find?_cons_of_pos _ (by simp [ha])]
      simp
    · rw [if_neg ha]
      rw [List.find?_cons_of_neg _ (by simp [ha]), List.find?_cons_of_neg _ (by simp [ha])]
      exact ih

lemma lookupVm_bump_other : ∀ (s : Store) (vm w : String), w ≠ vm →
    lookupVm (s.map (fun p =>
      if p.1 = vm then (p.1, { p.2 with upSecs := p.2.upSecs + 60 }) else p)) w =
      lookupVm s w := by
  intro s vm w hne
  induction s with
  | nil => rfl
  | cons a t ih =>
    unfold lookupVm at ih ⊢
    rw [List.map_cons]
    by_cases ha : a.1 = w
    · have hav : ¬(a.1 = vm) := fun hh => hne (ha ▸ hh ▸ rfl)
      rw [if_neg hav]
      rw [List.find?_cons_of_pos _ (by simp [ha]), List.find?_cons_of_pos _ (by simp [ha])]
    · by_cases hav : a.1 = vm
      · rw [if_pos hav]
        rw [List.find?_cons_of_neg _ (by simp [ha]), List.find?_cons_of_neg _ (by simp [ha])]
        exact ih
      · rw [if_neg hav]
        rw [List.find?_cons_of_neg _ (by simp [ha]), List.find?_cons_of_neg _ (by simp [ha])]
        exact ih

lemma lookupVm_append (s : Store) (x : String × AgentRecord) (vm : String) :
    lookupVm (s ++ [x]) vm =
      (match lookupVm s vm with
        | some r => some r
        | none => if x.1 = vm then some x.2 else none) := by
  induction s with
  | nil =>
    show lookupVm [x] vm = _
    unfold lookupVm
    by_cases hx : x.1 = vm
    · rw [List.find?_cons_of_pos _ (by simp [hx])]
      simp [hx]
    · rw [List.find?_cons_of_neg _ (by simp [hx])]
      simp [hx]
  | cons a t ih =>
    unfold lookupVm at ih ⊢
    rw [List.cons_append]
    by_cases ha : a.1 = vm
    · rw [List.find?_cons_of_pos _ (by simp [ha]), List.find?_cons_of_pos _ (by simp [ha])]
      rfl
    · rw [List.find?_cons_of_neg _ (by simp [ha]), List.find?_cons_of_neg _ (by simp [ha])]
      exact ih

lemma lookupVm_isSome_of_any {s : Store} {vm : String}
    (h : s.any (fun p => decide (p.1 = vm)) = true) : (lookupVm s vm).isSome := by
  obtain ⟨p, hps, hp⟩ := List.any_eq_true.mp h
  have hf : (s.find? (fun p => decide (p.1 = vm))).isSome :=
    List.find?_isSome.mpr ⟨p, hps, hp⟩
  unfold lookupVm
  cases hff : s.find? (fun p => decide (p.1 = vm)) with
  | none => rw [hff] at hf; simp at hf
  | some q => simp

lemma any_of_lookupVm_isSome {s : Store} {vm : String} {r : AgentRecord}
    (h : lookupVm s vm = some r) : s.any (fun p => decide (p.1 = vm)) = true := by
  unfold lookupVm at h
  cases hf : s.find? (fun p => decide (p.1 = vm)) with
  | none => rw [hf] at h; simp at h
  | some p =>
    have hps := List.find?_some hf
    exact List.any_eq_true.mpr ⟨p, List.mem_of_find?_eq_some hf, hps⟩

lemma lookupVm_collectorUpsert_self (s : Store) (vm : String) :
    lookupVm (collectorUpsert s vm) vm =
      some (match lookupVm s vm with
        | none => ⟨none, 60, 0, 0⟩
        | some r => { r with upSecs := r.upSecs + 60 }) := by
  unfold collectorUpsert
  split
  · next hany =>
    rw [lookupVm_bump]
    have hs := lookupVm_isSome_of_any hany
    cases h : lookupVm s vm with
    | none => rw [h] at hs; simp at hs
    | some r => rfl
  · next hany =>
    have hnone : lookupVm s vm = none := by
      cases h : lookupVm s vm with
      | none => rfl
      | some r => exact absurd (any_of_lookupVm_isSome h) hany
    rw [lookupVm_append, hnone]
    simp

lemma lookupVm_collectorUpsert_other (s : Store) (vm w : String) (hne : w ≠ vm) :
    lookupVm (collectorUpsert s vm) w = lookupVm s w := by
  unfold collectorUpsert
  split
  · exact lookupVm_bump_other s vm w hne
  · rw [lookupVm_append]
    cases h : lookupVm s w with
    | none => exact if_neg (fun hh => hne hh.symm)
    | some r => rfl

lemma foldl_upsert_lookup : ∀ (vms : List String) (s : Store), vms.Nodup →
    (∀ vm ∈ vms,
      lookupVm (vms.foldl collectorUpsert s) vm =
        some (match lookupVm s vm with
          | none => ⟨none, 60, 0, 0⟩
          | some r => { r with upSecs := r.upSecs + 60 })) ∧
    (∀ w, w ∉ vms → lookupVm (vms.foldl collectorUpsert s) w = lookupVm s w) := by
  intro vms
  induction vms with
  | nil => intro s _; exact ⟨by simp, fun w _ => rfl⟩
  | cons v vs ih =>
    intro s hnd
    rw [List.nodup_cons] at hnd
    have IH := ih (collectorUpsert s v) hnd.2
    constructor
    · intro vm hvm
      rcases List.mem_cons.mp hvm with rfl | hvm'
      · rw [List.foldl_cons, IH.2 vm hnd.1]
        exact lookupVm_collectorUpsert_self s vm
      · have hne : vm ≠ v := fun hh => hnd.1 (hh ▸ hvm')
        rw [List.foldl_cons, IH.1 vm hvm', lookupVm_collectorUpsert_other s v vm hne]
    · intro w hw
      have hw1 : w ≠ v := fun hh => hw (hh ▸ List.mem_cons_self v vs)
      have hw2 : w ∉ vs := fun hh => hw (List.mem_cons_of_mem v hh)
      rw [List.foldl_cons, IH.2 w hw2, lookupVm_collectorUpsert_other s v w hw1]

/-- C8: a collector tick over the fetched (deduplicated, as keys of a map) set
of agent ids: an id seen for the first time gets a fresh row with no bound
chat, zero notified and claimed counters, and a raw counter of exactly one
60-second tick unit (the record is created at zero and advanced by that tick's
unit); an id already present advances `up_secs` by exactly 60; ids absent from
the fetched set do not advance. -/
theorem C8_collector_tick (s : Store) (vms : List String) (s' : Store)
    (hnd : vms.Nodup)
    (htick : collectorTick (Except.ok vms) s = Except.ok s') :
    (∀ vm ∈ vms, lookupVm s vm = none →
      lookupVm s' vm = some ⟨none, 60, 0, 0⟩) ∧
    (∀ vm ∈ vms, ∀ r, lookupVm s vm = some r →
      lookupVm s' vm = some { r with upSecs := r.upSecs + 60 }) ∧
    (∀ w, w ∉ vms → lookupVm s' w = lookupVm s w) := by
  have hs' : s' = vms.foldl collectorUpsert s := by
    unfold collectorTick at htick
    exact (Except.ok.inj htick).symm
  subst hs'
  obtain ⟨h1, h2⟩ := foldl_upsert_lookup vms s hnd
  refine ⟨?_, ?_, h2⟩
  · intro vm hvm hnone
    rw [h1 vm hvm, hnone]
  · intro vm hvm r hr
    rw [h1 vm hvm, hr]

theorem C8_witness :
    lookupVm [("vmA", (⟨some 1, 180, 0, 0⟩ : AgentRecord)),
      ("vmB", (⟨none, 60, 0, 0⟩ : AgentRecord))] "vmB" =
      some (⟨none, 60, 0, 0⟩ : AgentRecord) :=
  (C8_collector_tick [("vmA", ⟨some 1, 120, 0, 0⟩)] ["vmA", "vmB"]
    [("vmA", ⟨some 1, 180, 0, 0⟩), ("vmB", ⟨none, 60, 0, 0⟩)]
    (by decide) (by rfl)).1 "vmB" (by decide) (by decide)

/-- C1: every ledger operation preserves table well-formedness — in particular
the chain 0 ≤ claimed_secs ≤ notified_secs ≤ up_secs on every record —
provided it held before the operation: the collector's insert/advance upsert
of any vm, the notifier's advance of notified_secs by
floor((up_secs - notified_secs)/86400)*86400 for any entry of the tick's scan,
and every handler request (register, deregister, and the claim advance of
claimed_secs by floor((notified_secs - claimed_secs)/86400)*86400, plus all
read-only commands).  The empty initial table is well-formed, so every
reachable table satisfies the invariant. -/
theorem C1_ledger_invariant_preserved (s : Store) (hWf : Wf s) :
    Wf ([] : Store) ∧
    (∀ vm, Wf (collectorUpsert s vm)) ∧
    (∀ c days, (c, days) ∈ notifyList s → Wf (advanceNotified s c (days * 86400))) ∧
    (∀ env langs chatId text?, Wf (handler env s langs chatId text?).records) :=
  ⟨⟨List.nodup_nil, by simp, List.Pairwise.nil⟩,
    fun vm => wf_collectorUpsert hWf vm,
    fun _ _ hmem => wf_advanceNotified hWf hmem,
    fun env langs chatId text? => wf_handler env s langs chatId text? hWf⟩

theorem C1_witness :
    Wf (collectorUpsert [("vm1", ⟨some 7, 86400, 86400, 0⟩)] "vm2") :=
  (C1_ledger_invariant_preserved [("vm1", ⟨some 7, 86400, 86400, 0⟩)]
    (by decide)).2.1 "vm2"

/-- C7: register(chat, vm): if the chat already has a bound agent of any id,
the handler answers already-registered and mutates nothing; otherwise, if no
row has key vm or the row keyed vm is already bound (necessarily to a
different chat, as this chat has no bound row), the handler answers invalid
and creates no binding, leaving any original binding intact (the table is
unchanged); otherwise it binds the row to the chat and succeeds; and the
handler preserves well-formedness, so the binding relation stays 1:1 after any
sequence of registrations. -/
theorem C7_register_semantics (env : Env) (records : Store) (langs : LangTable)
    (chatId : Int) (text vmId : String) (lang : Lang)
    (hcmd : parseCommand text = some (Command.register vmId))
    (hlang : (lookupLang langs chatId).bind Lang.fromCode = some lang) :
    (bindable records vmId = true ↔
      ∃ p ∈ records, p.1 = vmId ∧ p.2.boundChat = none) ∧
    ((findByChat records chatId).isSome = true →
      (handler env records langs chatId (some text)).records = records ∧
      (handler env records langs chatId (some text)).sent =
        (if env.sendOk 0 then [(chatId, Msg.thanksAlreadyRegistered)] else [])) ∧
    (findByChat records chatId = none → bindable records vmId = false →
      (handler env records langs chatId (some text)).records = records ∧
      (handler env records langs chatId (some text)).sent =
        (if env.sendOk 0 then [(chatId, Msg.invalidVm)] else [])) ∧
    (findByChat records chatId = none → bindable records vmId = true →
      (handler env records langs chatId (some text)).records =
        bindVm records vmId chatId) ∧
    (Wf records → Wf (handler env records langs chatId (some text)).records) := by
  have heq := handler_register_eq env records langs chatId text vmId lang hcmd hlang
  refine ⟨?_, ?_, ?_, ?_, fun h => wf_handler env records langs chatId (some text) h⟩
  · unfold bindable
    rw [List.any_eq_true]
    constructor
    · rintro ⟨p, hp, hpp⟩
      simp only [decide_eq_true_eq] at hpp
      exact ⟨p, hp, hpp⟩
    · rintro ⟨p, hp, hpp⟩
      exact ⟨p, hp, by simp [hpp.1, hpp.2]⟩
  · intro hreg
    rw [heq]
    unfold registerBranch
    rw [if_pos hreg]
    exact ⟨records_sendOnly _ _ _ _ _, sent_sendOnly _ _ _ _ _⟩
  · intro hnone hnb
    rw [heq]
    unfold registerBranch
    rw [if_neg (by rw [hnone]; simp), if_neg (by rw [hnb]; simp)]
    exact ⟨records_sendOnly _ _ _ _ _, sent_sendOnly _ _ _ _ _⟩
  · intro hnone hb
    rw [heq]
    unfold registerBranch
    rw [if_neg (by rw [hnone]; simp), if_pos hb]
    dsimp only
    split
    · split <;> rfl
    · rfl

theorem C7_witness :
    (handler ⟨IssuerResult.netErr, fun _ => true⟩ [("vm2", ⟨none, 120, 0, 0⟩)]
        [(9, "en")] 9 (some "/register vm2")).records =
      bindVm [("vm2", ⟨none, 120, 0, 0⟩)] "vm2" 9 :=
  (C7_register_semantics ⟨IssuerResult.netErr, fun _ => true⟩
    [("vm2", ⟨none, 120, 0, 0⟩)] [(9, "en")] 9 "/register vm2" "vm2" Lang.en
    (by decide) (by decide)).2.2.2.1 (by decide) (by decide)

end GephBot
